import Mathlib

/-!
Verification development for the shared usage fetcher of the
claude-usage-monitor repository (`usage_fetcher.py`).

Text is modelled as `List Char` so that the Python string primitives the
code uses (`str.strip`, `str.split('\n')`, `str.split('=', 1)`,
`str.startswith('#')`, slicing, `str.replace`) can be given exact
executable counterparts.  Python's default `str.strip` removes every
character for which `str.isspace()` holds: the ASCII characters
`\t \n \v \f \r \x1c \x1d \x1e \x1f` and space, plus `\x85` (NEL),
`\xa0` (no-break space), U+1680, U+2000-U+200A, U+2028, U+2029, U+202F,
U+205F and U+3000;
the model uses that full set.
-/

set_option autoImplicit false

namespace UsageMonitor

/-- Python text, modelled as a list of characters. -/
abbrev Str := List Char

/-- The characters removed by Python's default `str.strip`: exactly the
characters for which Python's `str.isspace()` is true. -/
def pySpace (c : Char) : Bool :=
  c = ' ' || c = '\t' || c = '\n' || c = '\r' || c = '\x0b' || c = '\x0c' ||
  c = '\x1c' || c = '\x1d' || c = '\x1e' || c = '\x1f' ||
  c = '\x85' || c = '\xa0' || c = '\u1680' ||
  ('\u2000' ≤ c && c ≤ '\u200a') ||
  c = '\u2028' || c = '\u2029' || c = '\u202f' || c = '\u205f' || c = '\u3000'

/-- Python `s.strip()`: remove leading and trailing whitespace. -/
def pyStrip (s : Str) : Str :=
  ((s.dropWhile pySpace).reverse.dropWhile pySpace).reverse

/-- Python `s.split('\n')`: split on every newline, keeping empty pieces. -/
def splitOnNl (s : Str) : List Str :=
  match s with
  | [] => [[]]
  | c :: cs =>
    match splitOnNl cs with
    | [] => [[]]
    | l :: ls => if c = '\n' then [] :: l :: ls else (c :: l) :: ls

/-- Python `line.startswith('#')`. -/
def startsWithHash (s : Str) : Bool :=
  match s with
  | [] => false
  | c :: _ => c = '#'

/-- Python `'=' in line`: membership of a character in the text. -/
def containsChar (s : Str) (c : Char) : Bool :=
  match s with
  | [] => false
  | a :: t => a = c || containsChar t c

/-- Python `line.split('=', 1)` on a line: the part before the first `=`
and the part after it (the whole line and `[]` when there is no `=`). -/
def splitFirstEq (s : Str) : Str × Str :=
  match s with
  | [] => ([], [])
  | c :: cs =>
    if c = '=' then ([], cs)
    else
      let p := splitFirstEq cs
      (c :: p.1, p.2)

/-- Decimal rendering of a natural number, as model text. -/
def natStr (n : Nat) : Str := (toString n).data

/-- Decimal rendering of an integer, as model text. -/
def intStr (i : Int) : Str := (toString i).data

/-- A Python `dict` with string keys and values, modelled as an
association list in insertion order; `dictInsert` is `d[k] = v`. -/
abbrev Dict := List (Str × Str)

/-- Python `d[k] = v`: overwrite in place if the key exists, else append. -/
def dictInsert (d : Dict) (k v : Str) : Dict :=
  match d with
  | [] => [(k, v)]
  | (k', v') :: rest =>
    if k' = k then (k, v) :: rest else (k', v') :: dictInsert rest k v

/-- Python `d.get(k)`. -/
def dictGet (d : Dict) (k : Str) : Option Str :=
  match d with
  | [] => none
  | (k', v) :: rest => if k' = k then some v else dictGet rest k

/-- Python `d.get(k, dflt)`. -/
def dictGetD (d : Dict) (k dflt : Str) : Str :=
  match dictGet d k with
  | some v => v
  | none => dflt

/-- The parsing loop of `UsageFetcher._parse_output`:

    data = {}
    for line in output.strip().split('\n'):
        if '=' in line and not line.startswith('#'):
            key, value = line.split('=', 1)
            data[key.strip()] = value.strip()
-/
def parseLineStep (data : Dict) (line : Str) : Dict :=
  if containsChar line '=' && !startsWithHash line then
    let p := splitFirstEq line
    dictInsert data (pyStrip p.1) (pyStrip p.2)
  else data

def parseOutput (output : Str) : Dict :=
  (splitOnNl (pyStrip output)).foldl parseLineStep []

/-- The parser as claim C4 words it: split the input (as given, with no
preliminary whole-input strip) on newlines; skip a line when it is empty,
starts with `#`, or contains no `=`; otherwise split on the first `=`,
trim key and value, and let the last value for a key win. -/
def claimC4Parse (input : Str) : Dict :=
  (splitOnNl input).foldl
    (fun data line =>
      if line.isEmpty || startsWithHash line || !containsChar line '=' then data
      else
        let p := splitFirstEq line
        dictInsert data (pyStrip p.1) (pyStrip p.2))
    []

/-- Serialisation of a mapping as `KEY=value` lines, one line per entry,
as in the round-trip property of spec §8. -/
def serializeDict (m : Dict) : Str :=
  match m with
  | [] => []
  | [kv] => kv.1 ++ '=' :: kv.2
  | kv :: rest => kv.1 ++ '=' :: kv.2 ++ '\n' :: serializeDict rest

/-- The mutable state of a `UsageFetcher` instance
(`UsageFetcher.__init__`).  `last_successful_fetch` stores an abstract
timestamp (a `Nat`); the human-readable clock strings that appear in
status labels are passed into `doFetch` separately. -/
structure FetchState where
  last_good_data : Option Dict
  last_successful_fetch : Option Nat
  last_error : Option Str
  fetch_count : Nat
  is_fetching : Bool
  is_stale : Bool
deriving Repr, DecidableEq

/-- The state created at process start: `None`/`0`/`False` everywhere. -/
def initState : FetchState :=
  { last_good_data := none
    last_successful_fetch := none
    last_error := none
    fetch_count := 0
    is_fetching := false
    is_stale := false }

/-- The state dict handed to the `on_update` listener by
`UsageFetcher._notify_update`. -/
structure Snapshot where
  data : Option Dict
  is_stale : Bool
  error : Option Str
  status : Str
  fetch_count : Nat
  last_successful_fetch : Option Nat
  is_fetching : Bool
deriving Repr, DecidableEq

/-- `_notify_update(status, error)`: builds the snapshot from the current
state; its `error` field is Python's `error or self.last_error`, so an
omitted or empty `error` argument falls back to `last_error`. -/
def notifySnap (st : FetchState) (status : Str) (err : Option Str) : Snapshot :=
  { data := st.last_good_data
    is_stale := st.is_stale
    error :=
      match err with
      | some e => if e.isEmpty then st.last_error else some e
      | none => st.last_error
    status := status
    fetch_count := st.fetch_count
    last_successful_fetch := st.last_successful_fetch
    is_fetching := st.is_fetching }

/-- The outcome of one `subprocess.run` invocation of the usage script. -/
structure RunCompleted where
  returncode : Int
  stdout : Str
  stderr : Str
deriving Repr, DecidableEq

/-- How the subprocess invocation in `_do_fetch` can end: the process
completed (any exit code), `subprocess.TimeoutExpired` was raised, or some
other exception (launch failure etc.) with its type name and message. -/
inductive RunOutcome where
  | completed : RunCompleted → RunOutcome
  | timedOut : RunOutcome
  | failed : Str → Str → RunOutcome
deriving Repr, DecidableEq

/-- `result.stderr[:100].replace('\n', ' ') if result.stderr else "no stderr"`. -/
def stderrPreview (stderr : Str) : Str :=
  if stderr.isEmpty then "no stderr".data
  else (stderr.take 100).map (fun c => if c = '\n' then ' ' else c)

/-- `UsageFetcher._parse_output(output, fetch_num)`: parse, validate the
two mandatory fields against the `"??"` sentinel, and update state;
returns the new state and the notification emitted.  The pure parsing
model cannot raise, so the `except` arm of the source is unreachable
here.  `nowStr` is the `datetime.now().strftime('%H:%M:%S')` text and
`now` the abstract timestamp of the same instant. -/
def parseOutputStep (st : FetchState) (output : Str) (fetchNum : Nat)
    (nowStr : Str) (now : Nat) : FetchState × Snapshot :=
  let data := parseOutput output
  let session_remaining := dictGetD data "SESSION_REMAINING".data "??".data
  let weekly_remaining := dictGetD data "WEEKLY_REMAINING".data "??".data
  if session_remaining ≠ "??".data ∧ weekly_remaining ≠ "??".data then
    let st' := { st with
      last_good_data := some data
      last_successful_fetch := some now
      is_stale := false
      last_error := none }
    (st', notifySnap st'
      ("OK (fetch #".data ++ natStr fetchNum ++ ") @ ".data ++ nowStr) none)
  else
    let err := "Got ?? values (parsed ".data ++ natStr data.length ++ " keys)".data
    let st' := { st with last_error := some err, is_stale := true }
    (st', notifySnap st' ("Invalid data @ ".data ++ nowStr) (some err))

/-- `UsageFetcher._do_fetch`, as a function of the previous state and the
subprocess outcome.  `startStr` is the formatted start time used in the
"Fetching ..." label; `nowStr`/`now` stand for the `datetime.now()` calls
made when the attempt completes.  Returns the final state and the list of
notifications delivered to the listener, in order. -/
def doFetch (st : FetchState) (outcome : RunOutcome)
    (startStr nowStr : Str) (now : Nat) : FetchState × List Snapshot :=
  let st1 := { st with fetch_count := st.fetch_count + 1, is_fetching := true }
  let fetchNum := st1.fetch_count
  let snap1 := notifySnap st1
    ("Fetching #".data ++ natStr fetchNum ++ " (started ".data ++ startStr ++ ")...".data)
    none
  match outcome with
  | .completed r =>
    let st2 := { st1 with is_fetching := false }
    if r.returncode ≠ 0 then
      let err := "Script exit ".data ++ intStr r.returncode ++ ": ".data
        ++ stderrPreview r.stderr
      let st3 := { st2 with last_error := some err, is_stale := true }
      (st3, [snap1, notifySnap st3 ("Error @ ".data ++ nowStr) (some err)])
    else
      let p := parseOutputStep st2 r.stdout fetchNum nowStr now
      (p.1, [snap1, p.2])
  | .timedOut =>
    let st2 := { st1 with
      is_fetching := false
      last_error := some "Timeout after 90s".data
      is_stale := true }
    (st2, [snap1, notifySnap st2 ("Timeout @ ".data ++ nowStr)
      (some "Timeout after 90s".data)])
  | .failed ename emsg =>
    let err := ename ++ ": ".data ++ emsg
    let st2 := { st1 with
      is_fetching := false
      last_error := some err
      is_stale := true }
    (st2, [snap1, notifySnap st2 ("Error @ ".data ++ nowStr) (some err)])

/-- One fetch attempt's inputs: the subprocess outcome and the clock
readings observed during the attempt. -/
structure FetchInput where
  outcome : RunOutcome
  startStr : Str
  nowStr : Str
  now : Nat

/-- Run a sequence of fetch attempts from a state. -/
def runTrace (st : FetchState) : List FetchInput → FetchState
  | [] => st
  | i :: rest => runTrace (doFetch st i.outcome i.startStr i.nowStr i.now).1 rest

/-- The display projection record returned by `get_display_values`. -/
structure DisplayValues where
  session_remaining : Str
  weekly_remaining : Str
  time_remaining_str : Option Str
  confidence : Option Str
  session_resets : Option Str
  weekly_resets : Option Str
  exhausts_before_reset : Bool
  account_email : Option Str
  plan_type : Option Str
  extra_pct : Option Str
deriving Repr, DecidableEq

/-- `get_display_values(data)`.  Python's `if not data:` is true both for
`None` and for an empty dict, so both produce the all-default record. -/
def get_display_values (data : Option Dict) : DisplayValues :=
  match data with
  | none =>
    { session_remaining := "--".data
      weekly_remaining := "--".data
      time_remaining_str := none
      confidence := none
      session_resets := none
      weekly_resets := none
      exhausts_before_reset := false
      account_email := none
      plan_type := none
      extra_pct := none }
  | some d =>
    if d.isEmpty then
      { session_remaining := "--".data
        weekly_remaining := "--".data
        time_remaining_str := none
        confidence := none
        session_resets := none
        weekly_resets := none
        exhausts_before_reset := false
        account_email := none
        plan_type := none
        extra_pct := none }
    else
      { session_remaining := dictGetD d "SESSION_REMAINING".data "??".data
        weekly_remaining := dictGetD d "WEEKLY_REMAINING".data "??".data
        time_remaining_str := dictGet d "TIME_REMAINING_STR".data
        confidence := dictGet d "CONFIDENCE".data
        session_resets := dictGet d "SESSION_RESETS".data
        weekly_resets := dictGet d "WEEKLY_RESETS".data
        exhausts_before_reset := dictGet d "EXHAUSTS_BEFORE_RESET".data == some "true".data
        account_email := dictGet d "ACCOUNT_EMAIL".data
        plan_type := dictGet d "PLAN_TYPE".data
        extra_pct := dictGet d "EXTRA_USED".data }

/-- A fetch attempt that fails in the sense of claim C2: non-zero exit,
timeout, launch failure, or exit 0 with output that does not validate
(mandatory field missing or `"??"`). -/
def attemptFails (o : RunOutcome) : Prop :=
  match o with
  | .completed r =>
    r.returncode ≠ 0 ∨
      ¬(dictGetD (parseOutput r.stdout) "SESSION_REMAINING".data "??".data ≠ "??".data ∧
        dictGetD (parseOutput r.stdout) "WEEKLY_REMAINING".data "??".data ≠ "??".data)
  | .timedOut => True
  | .failed _ _ => True

/-- The all-default `DisplayValues` record returned for absent (or empty)
input, with `"--"` for the two percentage fields. -/
def defaultDisplay : DisplayValues :=
  { session_remaining := "--".data
    weekly_remaining := "--".data
    time_remaining_str := none
    confidence := none
    session_resets := none
    weekly_resets := none
    exhausts_before_reset := false
    account_email := none
    plan_type := none
    extra_pct := none }

/-! ### Claim theorems -/

/-- C3 counterexample: the initial `FetchState` already violates the
claimed invariant — it has `isStale = false` while `lastGoodData` is
absent (so in particular not a non-empty mapping produced by any fetch). -/
theorem initState_stale_false_without_data :
    initState.is_stale = false ∧ initState.last_good_data = none :=
  ⟨rfl, rfl⟩

/-- C4 counterexample: on the input `" #A=1"` the code's parser differs
from the claimed per-line procedure.  The code strips the whole input
first, so the line becomes `"#A=1"` and is skipped as a comment; the
claimed procedure sees the line `" #A=1"`, which does not start with `#`,
and parses it to `{"#A": "1"}`. -/
theorem parseOutput_strip_counterexample :
    parseOutput " #A=1".data = [] ∧
    claimC4Parse " #A=1".data = [("#A".data, "1".data)] ∧
    parseOutput " #A=1".data ≠ claimC4Parse " #A=1".data := by
  decide

/-- C4 amended: the parser first strips leading and trailing whitespace
from the whole input, and then behaves exactly as the claim describes on
every line of the stripped input (skip empty, `#`-initial and `=`-free
lines; split the rest on the first `=`; trim key and value; last value
wins via plain dict overwrite); empty input yields the empty mapping, and
no input is an error (the parsing loop is total). -/
theorem parseOutput_eq_claimed_on_stripped :
    (∀ s : Str, parseOutput s = claimC4Parse (pyStrip s)) ∧
    parseOutput [] = [] := by
  refine ⟨fun s => ?_, rfl⟩
  unfold parseOutput claimC4Parse
  apply List.foldl_ext
  intro acc line _
  cases line with
  | nil => simp [containsChar, parseLineStep]
  | cons c cs =>
    by_cases h1 : startsWithHash (c :: cs) <;>
      by_cases h2 : containsChar (c :: cs) '=' <;>
        simp [parseLineStep, h1, h2]

/-- C9: `get_display_values` on a present but empty mapping returns the
same all-default record as on absent input — in particular `"--"`, not
`"??"`, for both percentage fields — because Python's `if not data:`
treats the empty dict like `None`. -/
theorem display_values_empty_eq_absent :
    get_display_values (some ([] : Dict)) = get_display_values none ∧
    get_display_values (some ([] : Dict)) = defaultDisplay ∧
    (get_display_values (some ([] : Dict))).session_remaining = "--".data ∧
    (get_display_values (some ([] : Dict))).weekly_remaining = "--".data := by
  refine ⟨rfl, rfl, rfl, rfl⟩

/-- C5 counterexample: for the present-but-empty mapping the claim's field
table prescribes the per-key default `"??"` for `session_remaining`, but
the code returns `"--"` (emptiness is treated as absence). -/
theorem display_values_empty_counterexample :
    (get_display_values (some ([] : Dict))).session_remaining = "--".data ∧
    dictGetD ([] : Dict) "SESSION_REMAINING".data "??".data = "??".data ∧
    ("--".data : Str) ≠ "??".data := by
  decide

/-- C5 amended: `get_display_values` is pure and total by construction;
absent input and the present-but-empty mapping both yield the all-default
record; for present non-empty input each of the ten fields is read from
its fixed key with the per-field default from the table (`"??"` for the
two percentage fields, absent for the optional strings), and
`exhausts_before_reset` is true exactly when the raw value is `"true"`. -/
theorem display_values_spec :
    get_display_values none = defaultDisplay ∧
    get_display_values (some []) = defaultDisplay ∧
    ∀ d : Dict, d ≠ [] →
      (get_display_values (some d)).session_remaining
        = dictGetD d "SESSION_REMAINING".data "??".data ∧
      (get_display_values (some d)).weekly_remaining
        = dictGetD d "WEEKLY_REMAINING".data "??".data ∧
      (get_display_values (some d)).time_remaining_str
        = dictGet d "TIME_REMAINING_STR".data ∧
      (get_display_values (some d)).confidence = dictGet d "CONFIDENCE".data ∧
      (get_display_values (some d)).session_resets
        = dictGet d "SESSION_RESETS".data ∧
      (get_display_values (some d)).weekly_resets
        = dictGet d "WEEKLY_RESETS".data ∧
      ((get_display_values (some d)).exhausts_before_reset = true
        ↔ dictGet d "EXHAUSTS_BEFORE_RESET".data = some "true".data) ∧
      (get_display_values (some d)).account_email
        = dictGet d "ACCOUNT_EMAIL".data ∧
      (get_display_values (some d)).plan_type = dictGet d "PLAN_TYPE".data ∧
      (get_display_values (some d)).extra_pct = dictGet d "EXTRA_USED".data := by
  refine ⟨rfl, rfl, fun d hd => ?_⟩
  cases d with
  | nil => exact absurd rfl hd
  | cons kv rest =>
    refine ⟨rfl, rfl, rfl, rfl, rfl, rfl, ?_, rfl, rfl, rfl⟩
    simp [get_display_values]

/-- C5 amended witness: a non-empty mapping with a present percentage
field and `EXHAUSTS_BEFORE_RESET = "true"`. -/
theorem display_values_spec_witness :
    ([("SESSION_REMAINING".data, "42".data),
      ("EXHAUSTS_BEFORE_RESET".data, "true".data)] : Dict) ≠ [] ∧
    (get_display_values (some [("SESSION_REMAINING".data, "42".data),
      ("EXHAUSTS_BEFORE_RESET".data, "true".data)])).session_remaining = "42".data ∧
    (get_display_values (some [("SESSION_REMAINING".data, "42".data),
      ("EXHAUSTS_BEFORE_RESET".data, "true".data)])).weekly_remaining = "??".data ∧
    (get_display_values (some [("SESSION_REMAINING".data, "42".data),
      ("EXHAUSTS_BEFORE_RESET".data, "true".data)])).exhausts_before_reset = true ∧
    (get_display_values (some [("SESSION_REMAINING".data, "42".data),
      ("EXHAUSTS_BEFORE_RESET".data, "true".data)])).time_remaining_str = none := by
  have h := display_values_spec.2.2
    [("SESSION_REMAINING".data, "42".data), ("EXHAUSTS_BEFORE_RESET".data, "true".data)]
    (by decide)
  refine ⟨by decide, h.1.trans (by decide), h.2.1.trans (by decide), ?_,
    h.2.2.1.trans (by decide)⟩
  exact h.2.2.2.2.2.2.1.mpr (by decide)

/-- C1: a fetch whose subprocess exits 0 and whose parsed output has both
mandatory fields with non-`"??"` values sets `lastGoodData` to the full
parsed mapping, `lastSuccessfulFetchTime` to the current time, `isStale`
to false and `lastError` to null, and notifies the listener with status
`"OK (fetch #<n>) @ <time>"` (after the initial "Fetching ..."
notification of the attempt). -/
theorem fetch_valid_success_updates_state (st : FetchState)
    (stdout stderr startStr nowStr : Str) (now : Nat)
    (hs : dictGetD (parseOutput stdout) "SESSION_REMAINING".data "??".data ≠ "??".data)
    (hw : dictGetD (parseOutput stdout) "WEEKLY_REMAINING".data "??".data ≠ "??".data) :
    (doFetch st (.completed ⟨0, stdout, stderr⟩) startStr nowStr now).1.last_good_data
      = some (parseOutput stdout) ∧
    (doFetch st (.completed ⟨0, stdout, stderr⟩) startStr nowStr now).1.last_successful_fetch
      = some now ∧
    (doFetch st (.completed ⟨0, stdout, stderr⟩) startStr nowStr now).1.is_stale = false ∧
    (doFetch st (.completed ⟨0, stdout, stderr⟩) startStr nowStr now).1.last_error = none ∧
    ((doFetch st (.completed ⟨0, stdout, stderr⟩) startStr nowStr now).2.map Snapshot.status)
      = ["Fetching #".data ++ natStr (st.fetch_count + 1) ++ " (started ".data
           ++ startStr ++ ")...".data,
         "OK (fetch #".data ++ natStr (st.fetch_count + 1) ++ ") @ ".data ++ nowStr] := by
  simp [doFetch, parseOutputStep, notifySnap, hs, hw]

/-- C1 witness at scenario-A input. -/
theorem fetch_valid_success_updates_state_witness :
    (doFetch initState
        (.completed ⟨0, "SESSION_REMAINING=42\nWEEKLY_REMAINING=88\n".data, []⟩)
        "12:00:00".data "12:00:05".data 7).1.last_good_data
      = some [("SESSION_REMAINING".data, "42".data), ("WEEKLY_REMAINING".data, "88".data)] ∧
    (doFetch initState
        (.completed ⟨0, "SESSION_REMAINING=42\nWEEKLY_REMAINING=88\n".data, []⟩)
        "12:00:00".data "12:00:05".data 7).1.last_successful_fetch = some 7 ∧
    (doFetch initState
        (.completed ⟨0, "SESSION_REMAINING=42\nWEEKLY_REMAINING=88\n".data, []⟩)
        "12:00:00".data "12:00:05".data 7).1.is_stale = false ∧
    (doFetch initState
        (.completed ⟨0, "SESSION_REMAINING=42\nWEEKLY_REMAINING=88\n".data, []⟩)
        "12:00:00".data "12:00:05".data 7).1.last_error = none ∧
    ((doFetch initState
        (.completed ⟨0, "SESSION_REMAINING=42\nWEEKLY_REMAINING=88\n".data, []⟩)
        "12:00:00".data "12:00:05".data 7).2.map Snapshot.status)
      = ["Fetching #1 (started 12:00:00)...".data, "OK (fetch #1) @ 12:00:05".data] := by
  have h := fetch_valid_success_updates_state initState
    "SESSION_REMAINING=42\nWEEKLY_REMAINING=88\n".data []
    "12:00:00".data "12:00:05".data 7 (by decide) (by decide)
  exact ⟨h.1.trans (by decide), h.2.1, h.2.2.1, h.2.2.2.1, h.2.2.2.2.trans (by decide)⟩

/-- C2: every failing fetch attempt — non-zero exit, timeout, launch
failure, or invalid/unvalidated output — leaves `lastGoodData` and
`lastSuccessfulFetchTime` exactly as they were and sets `isStale` to
true; so after a failure following a prior success, `lastGoodData` still
holds the prior successful mapping. -/
theorem failed_fetch_preserves_good_data (st : FetchState) (o : RunOutcome)
    (startStr nowStr : Str) (now : Nat) (h : attemptFails o) :
    (doFetch st o startStr nowStr now).1.last_good_data = st.last_good_data ∧
    (doFetch st o startStr nowStr now).1.last_successful_fetch = st.last_successful_fetch ∧
    (doFetch st o startStr nowStr now).1.is_stale = true := by
  cases o with
  | timedOut => simp [doFetch]
  | failed a b => simp [doFetch]
  | completed r =>
    by_cases hrc : r.returncode ≠ 0
    · simp [doFetch, hrc]
    · have hinv := (h.resolve_left hrc : ¬_)
      simp [doFetch, parseOutputStep, hrc, hinv]

/-- C2 witness: a timeout after a prior successful fetch keeps the prior
mapping and the prior fetch time, and marks the state stale. -/
theorem failed_fetch_preserves_good_data_witness :
    (doFetch initState
        (.completed ⟨0, "SESSION_REMAINING=42\nWEEKLY_REMAINING=88\n".data, []⟩)
        [] [] 1).1.last_good_data
      = some [("SESSION_REMAINING".data, "42".data), ("WEEKLY_REMAINING".data, "88".data)] ∧
    (doFetch (doFetch initState
        (.completed ⟨0, "SESSION_REMAINING=42\nWEEKLY_REMAINING=88\n".data, []⟩)
        [] [] 1).1 .timedOut [] [] 2).1.last_good_data
      = (doFetch initState
        (.completed ⟨0, "SESSION_REMAINING=42\nWEEKLY_REMAINING=88\n".data, []⟩)
        [] [] 1).1.last_good_data ∧
    (doFetch (doFetch initState
        (.completed ⟨0, "SESSION_REMAINING=42\nWEEKLY_REMAINING=88\n".data, []⟩)
        [] [] 1).1 .timedOut [] [] 2).1.last_successful_fetch
      = (doFetch initState
        (.completed ⟨0, "SESSION_REMAINING=42\nWEEKLY_REMAINING=88\n".data, []⟩)
        [] [] 1).1.last_successful_fetch ∧
    (doFetch (doFetch initState
        (.completed ⟨0, "SESSION_REMAINING=42\nWEEKLY_REMAINING=88\n".data, []⟩)
        [] [] 1).1 .timedOut [] [] 2).1.is_stale = true := by
  have h := failed_fetch_preserves_good_data
    (doFetch initState
      (.completed ⟨0, "SESSION_REMAINING=42\nWEEKLY_REMAINING=88\n".data, []⟩)
      [] [] 1).1 .timedOut [] [] 2 trivial
  exact ⟨by decide, h.1, h.2.1, h.2.2⟩

/-- On non-zero exit, `lastError` is the "Script exit" message built from
the exit code and the sanitized stderr preview. -/
lemma doFetch_nonzero_last_error (st : FetchState) (r : RunCompleted)
    (startStr nowStr : Str) (now : Nat) (h : r.returncode ≠ 0) :
    (doFetch st (.completed r) startStr nowStr now).1.last_error
      = some ("Script exit ".data ++ intStr r.returncode ++ ": ".data
          ++ stderrPreview r.stderr) := by
  simp [doFetch, h]

/-- C6 counterexample: for stderr `"a\nb"` the error message is
`"Script exit 1: a b"` — the newline is replaced by a space — not
`"Script exit 1: "` followed by the literal first 100 characters of
stderr, as the claim's template prescribes. -/
theorem script_exit_error_newline_counterexample :
    (doFetch initState (.completed ⟨1, [], "a\nb".data⟩) [] [] 0).1.last_error
      = some "Script exit 1: a b".data ∧
    (doFetch initState (.completed ⟨1, [], "a\nb".data⟩) [] [] 0).1.last_error
      ≠ some ("Script exit ".data ++ intStr 1 ++ ": ".data ++ "a\nb".data.take 100) := by
  decide

/-- C6 amended: on non-zero exit the fetcher sets `isFetching = false`,
`isStale = true` and `lastError = "Script exit <code>: <preview>"`, where
the preview is the first 100 characters of stderr with newlines replaced
by spaces, or `"no stderr"` when stderr is empty; it notifies with status
`"Error @ <time>"` (after the attempt's initial "Fetching ..."
notification).  In particular exit code 1 with stderr `"disk full"`
yields `lastError = "Script exit 1: disk full"` and `isStale` true. -/
theorem script_exit_nonzero_error (st : FetchState) (r : RunCompleted)
    (startStr nowStr : Str) (now : Nat) (h : r.returncode ≠ 0) :
    (doFetch st (.completed r) startStr nowStr now).1.is_fetching = false ∧
    (doFetch st (.completed r) startStr nowStr now).1.is_stale = true ∧
    (doFetch st (.completed r) startStr nowStr now).1.last_error
      = some ("Script exit ".data ++ intStr r.returncode ++ ": ".data
          ++ stderrPreview r.stderr) ∧
    ((doFetch st (.completed r) startStr nowStr now).2.map Snapshot.status)
      = ["Fetching #".data ++ natStr (st.fetch_count + 1) ++ " (started ".data
           ++ startStr ++ ")...".data,
         "Error @ ".data ++ nowStr] := by
  simp [doFetch, notifySnap, h]

/-- C6 witness at scenario C: exit code 1, stderr `"disk full"`. -/
theorem script_exit_nonzero_error_witness :
    (doFetch initState (.completed ⟨1, [], "disk full".data⟩)
        "12:00:00".data "12:00:05".data 0).1.last_error
      = some "Script exit 1: disk full".data ∧
    (doFetch initState (.completed ⟨1, [], "disk full".data⟩)
        "12:00:00".data "12:00:05".data 0).1.is_stale = true ∧
    ((doFetch initState (.completed ⟨1, [], "disk full".data⟩)
        "12:00:00".data "12:00:05".data 0).2.map Snapshot.status)
      = ["Fetching #1 (started 12:00:00)...".data, "Error @ 12:00:05".data] := by
  have h := script_exit_nonzero_error initState ⟨1, [], "disk full".data⟩
    "12:00:00".data "12:00:05".data 0 (by decide)
  exact ⟨h.2.2.1.trans (by decide), h.2.1, h.2.2.2.trans (by decide)⟩

/-- C10: in the non-zero-exit error message, newlines within the first
100 characters of stderr are replaced by spaces (the preview never
contains a newline), and empty stderr produces the message
`"Script exit <code>: no stderr"` rather than an empty preview. -/
theorem stderr_preview_sanitized (st : FetchState) (r : RunCompleted)
    (startStr nowStr : Str) (now : Nat) (h : r.returncode ≠ 0) :
    (r.stderr = [] →
      (doFetch st (.completed r) startStr nowStr now).1.last_error
        = some ("Script exit ".data ++ intStr r.returncode ++ ": no stderr".data)) ∧
    (r.stderr ≠ [] →
      (doFetch st (.completed r) startStr nowStr now).1.last_error
        = some ("Script exit ".data ++ intStr r.returncode ++ ": ".data
            ++ (r.stderr.take 100).map (fun c => if c = '\n' then ' ' else c))) ∧
    '\n' ∉ stderrPreview r.stderr := by
  refine ⟨fun he => ?_, fun he => ?_, ?_⟩
  · have hp : stderrPreview r.stderr = "no stderr".data := by
      simp [stderrPreview, he]
    rw [doFetch_nonzero_last_error st r startStr nowStr now h, hp]
    simp
  · have hp : stderrPreview r.stderr
        = (r.stderr.take 100).map (fun c => if c = '\n' then ' ' else c) := by
      simp [stderrPreview, List.isEmpty_iff, he]
    rw [doFetch_nonzero_last_error st r startStr nowStr now h, hp]
  · by_cases he : r.stderr = []
    · simp [stderrPreview, he]
    · rw [show stderrPreview r.stderr
          = (r.stderr.take 100).map (fun c => if c = '\n' then ' ' else c) from by
        simp [stderrPreview, List.isEmpty_iff, he]]
      intro hmem
      rcases List.mem_map.mp hmem with ⟨c, _, hc⟩
      by_cases hcn : c = '\n' <;> simp [hcn] at hc

/-- C10 witness: exit 7 with stderr `"x\nyz"` gives the sanitized message
`"Script exit 7: x yz"`, and exit 3 with empty stderr gives
`"Script exit 3: no stderr"`. -/
theorem stderr_preview_sanitized_witness :
    (doFetch initState (.completed ⟨7, [], "x\nyz".data⟩) [] [] 0).1.last_error
      = some "Script exit 7: x yz".data ∧
    (doFetch initState (.completed ⟨3, [], []⟩) [] [] 0).1.last_error
      = some "Script exit 3: no stderr".data := by
  have h1 := (stderr_preview_sanitized initState ⟨7, [], "x\nyz".data⟩ [] [] 0
    (by decide)).2.1 (by decide)
  have h2 := (stderr_preview_sanitized initState ⟨3, [], []⟩ [] [] 0
    (by decide)).1 rfl
  exact ⟨h1.trans (by decide), h2.trans (by decide)⟩

/-- C7: a fetch whose subprocess exits 0 but whose parsed output fails
validation (a mandatory field missing or `"??"`) sets `isStale` to true
and `lastError` to `"Got ?? values (parsed <k> keys)"` with `k` the
number of parsed keys, leaving `lastGoodData` untouched. -/
theorem invalid_output_error (st : FetchState)
    (stdout stderr startStr nowStr : Str) (now : Nat)
    (h : ¬(dictGetD (parseOutput stdout) "SESSION_REMAINING".data "??".data ≠ "??".data ∧
           dictGetD (parseOutput stdout) "WEEKLY_REMAINING".data "??".data ≠ "??".data)) :
    (doFetch st (.completed ⟨0, stdout, stderr⟩) startStr nowStr now).1.is_stale = true ∧
    (doFetch st (.completed ⟨0, stdout, stderr⟩) startStr nowStr now).1.last_error
      = some ("Got ?? values (parsed ".data ++ natStr (parseOutput stdout).length
          ++ " keys)".data) ∧
    (doFetch st (.completed ⟨0, stdout, stderr⟩) startStr nowStr now).1.last_good_data
      = st.last_good_data := by
  simp [doFetch, parseOutputStep, h]

/-- C7 witness at scenario B (`"SESSION_REMAINING=??\nWEEKLY_REMAINING=50\n"`,
2 parsed keys) and scenario E (empty stdout, 0 parsed keys). -/
theorem invalid_output_error_witness :
    (doFetch initState
        (.completed ⟨0, "SESSION_REMAINING=??\nWEEKLY_REMAINING=50\n".data, []⟩)
        [] [] 0).1.last_error = some "Got ?? values (parsed 2 keys)".data ∧
    (doFetch initState
        (.completed ⟨0, "SESSION_REMAINING=??\nWEEKLY_REMAINING=50\n".data, []⟩)
        [] [] 0).1.is_stale = true ∧
    (doFetch initState (.completed ⟨0, [], []⟩) [] [] 0).1.last_error
      = some "Got ?? values (parsed 0 keys)".data := by
  have hB := invalid_output_error initState
    "SESSION_REMAINING=??\nWEEKLY_REMAINING=50\n".data [] [] [] 0 (by decide)
  have hE := invalid_output_error initState [] [] [] [] 0 (by decide)
  exact ⟨hB.2.1.trans (by decide), hB.1, hE.2.1.trans (by decide)⟩

lemma runTrace_append (st : FetchState) (a b : List FetchInput) :
    runTrace st (a ++ b) = runTrace (runTrace st a) b := by
  induction a generalizing st with
  | nil => rfl
  | cons i rest ih => simp [runTrace, ih]

/-- After any single fetch attempt, `isStale = false` forces the attempt
to have been a validated success, and `lastGoodData` to be its full
parsed mapping. -/
lemma doFetch_stale_false (st : FetchState) (o : RunOutcome)
    (startStr nowStr : Str) (now : Nat)
    (h : (doFetch st o startStr nowStr now).1.is_stale = false) :
    ∃ r, o = .completed r ∧ r.returncode = 0 ∧
      dictGetD (parseOutput r.stdout) "SESSION_REMAINING".data "??".data ≠ "??".data ∧
      dictGetD (parseOutput r.stdout) "WEEKLY_REMAINING".data "??".data ≠ "??".data ∧
      (doFetch st o startStr nowStr now).1.last_good_data = some (parseOutput r.stdout) := by
  cases o with
  | timedOut => simp [doFetch] at h
  | failed a b => simp [doFetch] at h
  | completed r =>
    by_cases hrc : r.returncode ≠ 0
    · simp [doFetch, hrc] at h
    · by_cases hv : dictGetD (parseOutput r.stdout) "SESSION_REMAINING".data "??".data
          ≠ "??".data ∧
        dictGetD (parseOutput r.stdout) "WEEKLY_REMAINING".data "??".data ≠ "??".data
      · exact ⟨r, rfl, not_not.mp hrc, hv.1, hv.2, by
          simp [doFetch, parseOutputStep, hrc, hv]⟩
      · exfalso
        have := h
        simp [doFetch, parseOutputStep, hrc, hv] at this

/-- A mapping whose `SESSION_REMAINING` lookup (with default `"??"`)
differs from `"??"` cannot be empty. -/
lemma valid_parse_ne_nil (s : Str)
    (h : dictGetD (parseOutput s) "SESSION_REMAINING".data "??".data ≠ "??".data) :
    parseOutput s ≠ [] := by
  intro he
  rw [he] at h
  exact h rfl

/-- C3 counterexample stands separately (`initState_stale_false_without_data`).
C3 amended: in every state reached from the initial state by at least one
completed fetch attempt, `isStale = false` implies that the most recent
attempt was a successful validated fetch and that `lastGoodData` is the
non-empty mapping it parsed; the initial state itself, however, has
`isStale = false` with `lastGoodData` absent. -/
theorem stale_false_means_last_fetch_valid (ts : List FetchInput) (i : FetchInput)
    (h : (runTrace initState (ts ++ [i])).is_stale = false) :
    ∃ r, i.outcome = .completed r ∧ r.returncode = 0 ∧
      (runTrace initState (ts ++ [i])).last_good_data = some (parseOutput r.stdout) ∧
      parseOutput r.stdout ≠ [] ∧
      dictGetD (parseOutput r.stdout) "SESSION_REMAINING".data "??".data ≠ "??".data ∧
      dictGetD (parseOutput r.stdout) "WEEKLY_REMAINING".data "??".data ≠ "??".data := by
  have e : runTrace initState (ts ++ [i])
      = (doFetch (runTrace initState ts) i.outcome i.startStr i.nowStr i.now).1 := by
    rw [runTrace_append]
    rfl
  rw [e] at h
  rcases doFetch_stale_false _ _ _ _ _ h with ⟨r, ho, hrc, hs, hw, hd⟩
  exact ⟨r, ho, hrc, by rw [e]; exact hd, valid_parse_ne_nil _ hs, hs, hw⟩

/-- C3 amended witness: one successful validated fetch from the initial
state. -/
theorem stale_false_means_last_fetch_valid_witness :
    ∃ r, (FetchInput.mk
        (.completed ⟨0, "SESSION_REMAINING=42\nWEEKLY_REMAINING=88\n".data, []⟩)
        [] [] 1).outcome = .completed r ∧ r.returncode = 0 ∧
      (runTrace initState [FetchInput.mk
        (.completed ⟨0, "SESSION_REMAINING=42\nWEEKLY_REMAINING=88\n".data, []⟩)
        [] [] 1]).last_good_data = some (parseOutput r.stdout) ∧
      parseOutput r.stdout ≠ [] ∧
      dictGetD (parseOutput r.stdout) "SESSION_REMAINING".data "??".data ≠ "??".data ∧
      dictGetD (parseOutput r.stdout) "WEEKLY_REMAINING".data "??".data ≠ "??".data := by
  have h := stale_false_means_last_fetch_valid []
    (FetchInput.mk
      (.completed ⟨0, "SESSION_REMAINING=42\nWEEKLY_REMAINING=88\n".data, []⟩)
      [] [] 1) (by decide)
  simpa using h

/-! ### Helper lemmas for the round-trip property (C8) -/

lemma head?_dropWhile_false (p : Char → Bool) (l : Str) (a : Char)
    (h : (l.dropWhile p).head? = some a) : p a = false := by
  induction l with
  | nil => simp at h
  | cons c cs ih =>
    rw [List.dropWhile_cons] at h
    by_cases hc : p c
    · exact ih (by rwa [if_pos hc] at h)
    · rw [if_neg hc] at h
      cases h
      simpa using hc

lemma length_dropWhile_le (p : Char → Bool) (l : Str) :
    (l.dropWhile p).length ≤ l.length := by
  induction l with
  | nil => simp
  | cons c cs ih =>
    rw [List.dropWhile_cons]
    by_cases hc : p c
    · rw [if_pos hc]
      exact le_trans ih (Nat.le_succ _)
    · rw [if_neg hc]

lemma pyStrip_length_le (s : Str) : (pyStrip s).length ≤ s.length := by
  unfold pyStrip
  calc (((s.dropWhile pySpace).reverse.dropWhile pySpace).reverse).length
      = ((s.dropWhile pySpace).reverse.dropWhile pySpace).length := by
        rw [List.length_reverse]
    _ ≤ (s.dropWhile pySpace).reverse.length := length_dropWhile_le _ _
    _ = (s.dropWhile pySpace).length := by rw [List.length_reverse]
    _ ≤ s.length := length_dropWhile_le _ _

lemma head_of_pyStrip_fixed (s : Str) (h : pyStrip s = s) :
    ∀ a, s.head? = some a → pySpace a = false := by
  intro a ha
  cases s with
  | nil => simp at ha
  | cons c cs =>
    cases ha
    by_cases hc : pySpace a
    · exfalso
      have h1 : (pyStrip (a :: cs)).length ≤ ((a :: cs).dropWhile pySpace).length := by
        unfold pyStrip
        rw [List.length_reverse]
        exact le_trans (length_dropWhile_le _ _) (by rw [List.length_reverse])
      rw [List.dropWhile_cons, if_pos hc] at h1
      have h2 := le_trans h1 (length_dropWhile_le pySpace cs)
      rw [h] at h2
      exact absurd h2 (by simp)
    · simpa using hc

lemma getLast_of_pyStrip_fixed (s : Str) (h : pyStrip s = s) :
    ∀ a, s.getLast? = some a → pySpace a = false := by
  intro a ha
  have hrev : s.reverse = ((s.dropWhile pySpace).reverse).dropWhile pySpace := by
    conv_lhs => rw [← h]
    unfold pyStrip
    rw [List.reverse_reverse]
  apply head?_dropWhile_false pySpace (s.dropWhile pySpace).reverse
  rw [← hrev, List.head?_reverse]
  exact ha

lemma pyStrip_eq_self_of_edges (s : Str)
    (h1 : ∀ a, s.head? = some a → pySpace a = false)
    (h2 : ∀ a, s.getLast? = some a → pySpace a = false) :
    pyStrip s = s := by
  have e1 : s.dropWhile pySpace = s := by
    cases s with
    | nil => rfl
    | cons c cs =>
      rw [List.dropWhile_cons, h1 c rfl]
      simp
  have e2 : s.reverse.dropWhile pySpace = s.reverse := by
    cases hr : s.reverse with
    | nil => rfl
    | cons c cs =>
      have hc : s.getLast? = some c := by
        rw [← List.head?_reverse, hr]
        rfl
      rw [List.dropWhile_cons, h2 c hc]
      simp
  unfold pyStrip
  rw [e1, e2, List.reverse_reverse]

lemma splitOnNl_cons (c : Char) (cs : Str) :
    splitOnNl (c :: cs)
      = match splitOnNl cs with
        | [] => [[]]
        | l :: ls => if c = '\n' then [] :: l :: ls else (c :: l) :: ls := rfl

lemma splitOnNl_ne_nil (s : Str) : splitOnNl s ≠ [] := by
  cases s with
  | nil => simp [splitOnNl]
  | cons c cs =>
    rw [splitOnNl_cons]
    rcases h : splitOnNl cs with _ | ⟨l, ls⟩
    · simp
    · by_cases hc : c = '\n' <;> simp [hc]

lemma splitOnNl_cons_nl (cs : Str) : splitOnNl ('\n' :: cs) = [] :: splitOnNl cs := by
  rw [splitOnNl_cons]
  rcases h : splitOnNl cs with _ | ⟨l, ls⟩
  · exact absurd h (splitOnNl_ne_nil cs)
  · simp

lemma splitOnNl_cons_not_nl (c : Char) (cs : Str) (hc : ¬ c = '\n') :
    splitOnNl (c :: cs) = (c :: (splitOnNl cs).headI) :: (splitOnNl cs).tail := by
  rw [splitOnNl_cons]
  rcases h : splitOnNl cs with _ | ⟨l, ls⟩
  · exact absurd h (splitOnNl_ne_nil cs)
  · simp [hc]

lemma splitOnNl_no_nl (l : Str) (h : ('\n' : Char) ∉ l) : splitOnNl l = [l] := by
  induction l with
  | nil => rfl
  | cons c cs ih =>
    have hc : ¬ c = '\n' := fun e => h (e ▸ List.mem_cons_self c cs)
    rw [splitOnNl_cons_not_nl c cs hc, ih (fun m => h (List.mem_cons_of_mem _ m))]
    rfl

lemma splitOnNl_append_nl (l r : Str) (h : ('\n' : Char) ∉ l) :
    splitOnNl (l ++ '\n' :: r) = l :: splitOnNl r := by
  induction l with
  | nil => exact splitOnNl_cons_nl r
  | cons c cs ih =>
    have hc : ¬ c = '\n' := fun e => h (e ▸ List.mem_cons_self c cs)
    rw [List.cons_append, splitOnNl_cons_not_nl c _ hc,
      ih (fun m => h (List.mem_cons_of_mem _ m))]
    rfl

lemma splitFirstEq_append (k v : Str) (h : ('=' : Char) ∉ k) :
    splitFirstEq (k ++ '=' :: v) = (k, v) := by
  induction k with
  | nil => simp [splitFirstEq]
  | cons c cs ih =>
    have hc : ¬ c = '=' := fun e => h (e ▸ List.mem_cons_self c cs)
    simp [splitFirstEq, hc, ih (fun m => h (List.mem_cons_of_mem _ m))]

lemma containsChar_line_eq (k v : Str) : containsChar (k ++ '=' :: v) '=' = true := by
  induction k with
  | nil => simp [containsChar]
  | cons c cs ih => simp [containsChar, ih]

lemma startsWithHash_line (k v : Str) (hk : ¬ startsWithHash k = true) :
    startsWithHash (k ++ '=' :: v) = false := by
  cases k with
  | nil => simp [startsWithHash]
  | cons c cs =>
    simp [startsWithHash] at hk ⊢
    exact hk

lemma dictInsert_not_mem (d : Dict) (k v : Str) (h : k ∉ d.map Prod.fst) :
    dictInsert d k v = d ++ [(k, v)] := by
  induction d with
  | nil => rfl
  | cons kv rest ih =>
    simp only [List.map_cons, List.mem_cons] at h
    push_neg at h
    rw [show dictInsert (kv :: rest) k v
        = if kv.1 = k then (k, v) :: rest else kv :: dictInsert rest k v from rfl]
    rw [if_neg (fun e => h.1 e.symm), ih h.2]
    rfl

lemma serializeDict_single (kv : Str × Str) :
    serializeDict [kv] = kv.1 ++ '=' :: kv.2 := rfl

lemma serializeDict_cons (kv : Str × Str) (rest : Dict) (h : rest ≠ []) :
    serializeDict (kv :: rest) = kv.1 ++ '=' :: kv.2 ++ '\n' :: serializeDict rest := by
  cases rest with
  | nil => exact absurd rfl h
  | cons b l => rfl

lemma serializeDict_ne_nil (kv : Str × Str) (rest : Dict) :
    serializeDict (kv :: rest) ≠ [] := by
  cases rest with
  | nil =>
    rw [serializeDict_single]
    cases h : kv.1 <;> simp [h]
  | cons b l =>
    rw [serializeDict_cons _ _ (by simp)]
    cases h : kv.1 <;> simp [h]

/-- A serialised line contains no newline when neither key nor value does. -/
lemma line_no_nl (k v : Str) (hk : ('\n' : Char) ∉ k) (hv : ('\n' : Char) ∉ v) :
    ('\n' : Char) ∉ k ++ '=' :: v := by
  intro hmem
  rcases List.mem_append.mp hmem with h | h
  · exact hk h
  · rcases List.mem_cons.mp h with h | h
    · exact absurd h.symm (by decide)
    · exact hv h

lemma splitOnNl_serializeDict (m : Dict) (hm : m ≠ [])
    (hnl : ∀ kv ∈ m, ('\n' : Char) ∉ kv.1 ∧ ('\n' : Char) ∉ kv.2) :
    splitOnNl (serializeDict m) = m.map (fun kv => kv.1 ++ '=' :: kv.2) := by
  induction m with
  | nil => exact absurd rfl hm
  | cons kv rest ih =>
    have hkv := hnl kv (List.mem_cons_self kv rest)
    cases rest with
    | nil =>
      rw [serializeDict_single, splitOnNl_no_nl _ (line_no_nl _ _ hkv.1 hkv.2)]
      rfl
    | cons b l =>
      rw [serializeDict_cons _ _ (by simp),
        show kv.1 ++ '=' :: kv.2 ++ '\n' :: serializeDict (b :: l)
            = (kv.1 ++ '=' :: kv.2) ++ '\n' :: serializeDict (b :: l) from by
          simp,
        splitOnNl_append_nl _ _ (line_no_nl _ _ hkv.1 hkv.2),
        ih (by simp) (fun kv' h' => hnl kv' (List.mem_cons_of_mem _ h'))]
      rfl

lemma serializeDict_head_no_space (m : Dict)
    (hk : ∀ kv ∈ m, pyStrip kv.1 = kv.1) :
    ∀ a, (serializeDict m).head? = some a → pySpace a = false := by
  intro a ha
  cases m with
  | nil => simp [serializeDict] at ha
  | cons kv rest =>
    have hshape : ∃ t, serializeDict (kv :: rest) = kv.1 ++ '=' :: t := by
      cases rest with
      | nil => exact ⟨kv.2, serializeDict_single kv⟩
      | cons b l =>
        refine ⟨kv.2 ++ '\n' :: serializeDict (b :: l), ?_⟩
        rw [serializeDict_cons _ _ (by simp)]
        simp
    rcases hshape with ⟨t, ht⟩
    rw [ht] at ha
    cases hk1 : kv.1 with
    | nil =>
      rw [hk1] at ha
      cases ha
      decide
    | cons c cs =>
      rw [hk1] at ha
      cases ha
      exact head_of_pyStrip_fixed kv.1 (hk kv (List.mem_cons_self kv rest)) a
        (by rw [hk1]; rfl)

lemma serializeDict_getLast_no_space (m : Dict)
    (hv : ∀ kv ∈ m, pyStrip kv.2 = kv.2) :
    ∀ a, (serializeDict m).getLast? = some a → pySpace a = false := by
  intro a ha
  induction m with
  | nil => simp [serializeDict] at ha
  | cons kv rest ih =>
    cases rest with
    | nil =>
      rw [serializeDict_single] at ha
      cases hk2 : kv.2 with
      | nil =>
        rw [hk2, List.getLast?_concat] at ha
        cases ha
        decide
      | cons c cs =>
        have : (kv.1 ++ '=' :: kv.2).getLast? = kv.2.getLast? := by
          rw [List.getLast?_append]
          rw [show ('=' :: kv.2).getLast? = kv.2.getLast? from by
            rw [List.getLast?_cons]
            cases h2 : kv.2.getLast? with
            | none =>
              exfalso
              rw [hk2] at h2
              rw [List.getLast?_cons] at h2
              simp at h2
            | some b => simp]
          cases h2 : kv.2.getLast? with
          | none =>
            exfalso
            rw [hk2, List.getLast?_cons] at h2
            simp at h2
          | some b => simp
        rw [this] at ha
        exact getLast_of_pyStrip_fixed kv.2
          (hv kv (List.mem_cons_self kv [])) a ha
    | cons b l =>
      rw [serializeDict_cons _ _ (by simp)] at ha
      have hlast : (kv.1 ++ '=' :: kv.2 ++ '\n' :: serializeDict (b :: l)).getLast?
          = (serializeDict (b :: l)).getLast? := by
        rcases List.exists_cons_of_ne_nil (serializeDict_ne_nil b l) with ⟨x, xs, hx⟩
        rw [hx, show kv.1 ++ '=' :: kv.2 ++ '\n' :: x :: xs
            = (kv.1 ++ '=' :: kv.2 ++ ['\n']) ++ x :: xs from by simp,
          List.getLast?_append, List.getLast?_append]
        cases h2 : (x :: xs).getLast? with
        | none =>
          exfalso
          rw [List.getLast?_cons] at h2
          simp at h2
        | some y => simp
      rw [hlast] at ha
      exact ih (fun kv' h' => hv kv' (List.mem_cons_of_mem _ h')) ha

lemma pyStrip_serializeDict (m : Dict)
    (hk : ∀ kv ∈ m, pyStrip kv.1 = kv.1) (hv : ∀ kv ∈ m, pyStrip kv.2 = kv.2) :
    pyStrip (serializeDict m) = serializeDict m :=
  pyStrip_eq_self_of_edges _ (serializeDict_head_no_space m hk)
    (serializeDict_getLast_no_space m hv)

lemma parse_fold_serialized (m : Dict) (acc : Dict)
    (hnodup : (m.map Prod.fst).Nodup)
    (hdisj : ∀ kv ∈ m, kv.1 ∉ acc.map Prod.fst)
    (hcond : ∀ kv ∈ m, ('=' : Char) ∉ kv.1 ∧ ¬startsWithHash kv.1 = true ∧
        pyStrip kv.1 = kv.1 ∧ pyStrip kv.2 = kv.2) :
    (m.map (fun kv => kv.1 ++ '=' :: kv.2)).foldl parseLineStep acc = acc ++ m := by
  induction m generalizing acc with
  | nil => simp
  | cons kv rest ih =>
    have hc := hcond kv (List.mem_cons_self kv rest)
    have hstep : parseLineStep acc (kv.1 ++ '=' :: kv.2) = acc ++ [kv] := by
      unfold parseLineStep
      rw [containsChar_line_eq, startsWithHash_line _ _ hc.2.1]
      simp only [Bool.not_false, Bool.and_true, if_true]
      rw [splitFirstEq_append _ _ hc.1]
      rw [show (kv.1, kv.2).1 = kv.1 from rfl, show (kv.1, kv.2).2 = kv.2 from rfl,
        hc.2.2.1, hc.2.2.2,
        dictInsert_not_mem _ _ _ (hdisj kv (List.mem_cons_self kv rest))]
    rw [List.map_cons, List.foldl_cons, hstep]
    rw [ih (acc ++ [kv]) (List.nodup_cons.mp hnodup).2
      (fun kv' h' => by
        have hne : kv'.1 ≠ kv.1 := by
          intro e
          exact (List.nodup_cons.mp hnodup).1 (e ▸ List.mem_map_of_mem Prod.fst h')
        simp only [List.map_append, List.mem_append, List.map_cons, List.map_nil,
          List.mem_singleton]
        push_neg
        exact ⟨hdisj kv' (List.mem_cons_of_mem _ h'), hne⟩)
      (fun kv' h' => hcond kv' (List.mem_cons_of_mem _ h'))]
    simp

/-- C8 counterexample: mappings whose keys contain no `=` and no newline
for which serialising and re-parsing does not return the original
mapping — a key starting with `#` (the line is skipped as a comment), a
value with leading whitespace (it is trimmed), and a value containing a
newline (it is split across lines). -/
theorem serializeDict_roundtrip_counterexample :
    (('=' : Char) ∉ "#A".data ∧ ('\n' : Char) ∉ "#A".data) ∧
    parseOutput (serializeDict [("#A".data, "1".data)]) = [] ∧
    parseOutput (serializeDict [("#A".data, "1".data)]) ≠ [("#A".data, "1".data)] ∧
    parseOutput (serializeDict [("K".data, " v".data)]) ≠ [("K".data, " v".data)] ∧
    parseOutput (serializeDict [("K".data, "a\nb".data)]) ≠ [("K".data, "a\nb".data)] := by
  decide

/-- C8 amended: for every mapping (distinct keys) whose keys contain no
`=` and no newline, do not start with `#`, and are whitespace-trimmed,
and whose values contain no newline and are whitespace-trimmed,
serialising it as `KEY=value` lines and parsing back yields the original
mapping.  (Keys containing `=` or newlines, keys starting with `#`, and
untrimmed or newline-containing entries genuinely fail, see the
counterexample.) -/
theorem serializeDict_parseOutput_roundtrip (m : Dict)
    (hnodup : (m.map Prod.fst).Nodup)
    (hcond : ∀ kv ∈ m, ('=' : Char) ∉ kv.1 ∧ ('\n' : Char) ∉ kv.1 ∧
        ¬startsWithHash kv.1 = true ∧ pyStrip kv.1 = kv.1 ∧
        ('\n' : Char) ∉ kv.2 ∧ pyStrip kv.2 = kv.2) :
    parseOutput (serializeDict m) = m := by
  by_cases hm : m = []
  · subst hm
    rfl
  · unfold parseOutput
    rw [pyStrip_serializeDict m (fun kv h => (hcond kv h).2.2.2.1)
        (fun kv h => (hcond kv h).2.2.2.2.2),
      splitOnNl_serializeDict m hm
        (fun kv h => ⟨(hcond kv h).2.1, (hcond kv h).2.2.2.2.1⟩),
      parse_fold_serialized m [] hnodup (by simp)
        (fun kv h => ⟨(hcond kv h).1, (hcond kv h).2.2.1,
          (hcond kv h).2.2.2.1, (hcond kv h).2.2.2.2.2⟩)]
    rfl

/-- C8 amended witness: a two-entry mapping, one value containing `=`. -/
theorem serializeDict_parseOutput_roundtrip_witness :
    parseOutput (serializeDict
        [("SESSION_REMAINING".data, "42".data), ("B".data, "x=y".data)])
      = [("SESSION_REMAINING".data, "42".data), ("B".data, "x=y".data)] :=
  serializeDict_parseOutput_roundtrip _ (by decide) (by decide)

end UsageMonitor
